import Mathlib

/-!
# Verification of the CMA course packaging layer

Shallow embedding of the packer/unpacker module (`zipManager.zipCourse`,
`zipManager.unzipCourse`, `resizeImageToSquare`) and of the editor's mascot
pose update (`MascotEditor.handleFileChange`), together with proofs of the
specification's testable properties.

Modelling conventions:
* Binary content (JS `Blob` / `File`) is modelled by the `Blob` inductive:
  `Blob.image` is content that decodes as a raster image (format string is
  the MIME type, plus pixel dimensions and abstract payload), `Blob.raw` is
  content that does not decode as an image.
* A zip archive is a list of named entries with JSZip's replace-on-insert
  semantics (`zfile`) and lookup-by-name (`zfind`).
* The environment's `fetch(blobUrl)` is a parameter `fetch : String → Option
  Blob`; `none` models a rejected fetch (caught and logged by the source).
* JSON serialization of the manifest is modelled structurally: an archive
  entry is either `Entry.doc d` (text that `JSON.parse` reads back as the
  course document `d`), `Entry.malformed` (text that fails to parse as a
  course document) or `Entry.binary b` (asset bytes).
* Optional / possibly-absent JS fields are `Option`: `mascotName?` on the
  settings, and the transient handles `file` / `blobUrl` on asset records
  (`blobUrl` is declared `string` in `types.ts` but is absent at runtime on
  records parsed from a stripped manifest, so it is `Option String` here).
-/

namespace CMA

/-- `ModuleType` from `types.ts`. -/
inductive ModuleType where
  | text | video | quiz | cards | timeline | experiment
deriving DecidableEq, Repr

/-- `source: 'url' | 'upload'` of `VideoModule`. -/
inductive VideoSource where
  | url | upload
deriving DecidableEq, Repr

/-- An option of a `QuizQuestion` (`{ id: string; text: string }`). -/
structure QuizOption where
  id : String
  text : String
deriving DecidableEq, Repr

/-- `QuizQuestion` from `types.ts`. -/
structure QuizQuestion where
  id : String
  question : String
  options : List QuizOption
  correctOptionId : String
  explanation : String
deriving DecidableEq, Repr

/-- `Card` from `types.ts`. -/
structure Card where
  id : String
  front : String
  back : String
deriving DecidableEq, Repr

/-- `TimelineEvent` from `types.ts`. -/
structure TimelineEvent where
  id : String
  title : String
  date : String
  description : String
  imagePath : Option String
deriving DecidableEq, Repr

/-- `ExperimentStep` from `types.ts`. -/
structure ExperimentStep where
  id : String
  title : String
  description : String
  imagePath : Option String
deriving DecidableEq, Repr

/-- The variant-specific payload of a `Module`; the `type` discriminant of
the TypeScript tagged union is the constructor. -/
inductive ModulePayload where
  | text (content : String)
  | video (source : VideoSource) (url : Option String) (filePath : Option String)
  | quiz (questions : List QuizQuestion)
  | cards (cards : List Card)
  | timeline (events : List TimelineEvent)
  | experiment (steps : List ExperimentStep)
deriving DecidableEq, Repr

/-- `Module` from `types.ts`: stable id, title, and the tagged payload. -/
structure Module where
  id : String
  title : String
  payload : ModulePayload
deriving DecidableEq, Repr

/-- `theme` of `CourseSettings`. -/
structure Theme where
  primaryColor : String
  font : String
deriving DecidableEq, Repr

/-- `CourseSettings` from `types.ts` (`mascotName?` is optional). -/
structure CourseSettings where
  courseName : String
  mascotName : Option String
  school : String
  authors : String
  date : String
  description : String
  theme : Theme
  language : String
  mascotEnabled : Bool
  showScore : Bool
deriving DecidableEq, Repr

/-- Binary content: either content that decodes as a raster image (with its
MIME type and pixel dimensions) or content that does not decode. -/
inductive Blob where
  | image (format : String) (width : Nat) (height : Nat) (data : List Nat)
  | raw (data : List Nat)
deriving DecidableEq, Repr

/-- `type` of `MediaFile`. -/
inductive MediaType where
  | image | video | audio
deriving DecidableEq, Repr

/-- `MediaFile` from `types.ts`.  The transient content handles `blobUrl`
(local preview URL) and `file` (raw upload) may each be absent at runtime. -/
structure MediaFile where
  id : String
  name : String
  path : String
  type : MediaType
  blobUrl : Option String
  file : Option Blob
deriving DecidableEq, Repr

/-- `MascotPose` from `types.ts`; `type` is a pose tag (closed enum values or
an arbitrary custom string). -/
structure MascotPose where
  type : String
  path : String
  blobUrl : Option String
  file : Option Blob
deriving DecidableEq, Repr

/-- `Course` from `types.ts`. -/
structure Course where
  id : String
  settings : CourseSettings
  modules : List Module
  media : List MediaFile
  mascot : List MascotPose
deriving DecidableEq, Repr

/-- A media record as it appears in the manifest: `zipCourse` strips the
content-handle fields `file` and `blobUrl` (`({file, blobUrl, ...rest}) =>
rest`), keeping the rest. -/
structure CleanMedia where
  id : String
  name : String
  path : String
  type : MediaType
deriving DecidableEq, Repr

/-- A mascot record as it appears in the manifest: handles stripped. -/
structure CleanMascot where
  type : String
  path : String
deriving DecidableEq, Repr

/-- The `curso.json` document: the course with asset records replaced by
their handle-free forms. -/
structure CourseDoc where
  id : String
  settings : CourseSettings
  modules : List Module
  media : List CleanMedia
  mascot : List CleanMascot
deriving DecidableEq, Repr

/-- Drop the handle fields of a media record (the `...rest` destructuring in
`zipCourse`); also the handle-insensitive projection used to compare
records. -/
def stripMedia (m : MediaFile) : CleanMedia :=
  ⟨m.id, m.name, m.path, m.type⟩

/-- Drop the handle fields of a mascot record. -/
def stripMascot (p : MascotPose) : CleanMascot :=
  ⟨p.type, p.path⟩

/-- JS `String.prototype.trim`: drop whitespace from both ends of the
string (modelled for the ASCII whitespace characters). -/
def jsTrim (s : String) : String :=
  String.mk (((s.toList.dropWhile Char.isWhitespace).reverse.dropWhile
    Char.isWhitespace).reverse)

/-- The slug of a present mascot name: `trim()` then
`replace(/[^a-zA-Z0-9]/g, '_')` — every character outside ASCII
`[A-Za-z0-9]` becomes `_`. -/
def slugOfName (s : String) : String :=
  String.mk ((jsTrim s).toList.map (fun c => if c.isAlphanum then c else '_'))

/-- `course.settings.mascotName?.trim().replace(/[^a-zA-Z0-9]/g, '_') ||
'mascot'`: an absent name, or a slug that is the empty string (the only
falsy string), falls back to the default token. -/
def mascotSlug (mascotName : Option String) : String :=
  match mascotName with
  | none => "mascot"
  | some s => if slugOfName s = "" then "mascot" else slugOfName s

/-- The canonical in-archive path of a mascot pose
(`mascot/<slug>_<poseTag>.png`, extension forced to `.png`). -/
def mascotCanonicalPath (mascotName : Option String) (poseTag : String) : String :=
  "mascot/" ++ mascotSlug mascotName ++ "_" ++ poseTag ++ ".png"

example : mascotSlug (some "Dino 2000!") = "Dino_2000_" := by decide
example : mascotCanonicalPath (some "Dino 2000!") "happy" = "mascot/Dino_2000__happy.png" := by
  decide
example : mascotCanonicalPath (some "") "happy" = "mascot/mascot_happy.png" := by decide
example : mascotCanonicalPath none "happy" = "mascot/mascot_happy.png" := by decide

/-- An archive entry.  `doc d` models a text entry whose contents
`JSON.parse` reads back as the course document `d`; `malformed` models a
text entry whose contents fail to parse as a course document; `binary b`
models asset bytes (which are not a parseable course document). -/
inductive Entry where
  | doc (d : CourseDoc)
  | malformed
  | binary (b : Blob)
deriving DecidableEq, Repr

/-- A zip archive: named entries.  Names are unique by construction of
`zfile`. -/
abbrev Archive : Type := List (String × Entry)

/-- JSZip `zip.file(name, content)`: inserting an entry replaces any
existing entry with the same name. -/
def zfile (a : Archive) (p : String) (e : Entry) : Archive :=
  (p, e) :: List.filter (fun pe => pe.1 != p) a

/-- JSZip `zip.file(name)`: look up an entry by name. -/
def zfind (a : Archive) (q : String) : Option Entry :=
  (List.find? (fun pe => pe.1 == q) a).map (fun pe => pe.2)

/-- The content resolution step shared by the media and mascot loops of
`zipCourse`: use the raw upload handle `.file` when present, otherwise
`fetch(.blobUrl)`; a missing `blobUrl` or a rejected fetch resolves to
nothing (the source catches the rejection and skips the asset). -/
def resolveContent (fetch : String → Option Blob) (file : Option Blob)
    (blobUrl : Option String) : Option Blob :=
  match file with
  | some f => some f
  | none =>
    match blobUrl with
    | some u => fetch u
    | none => none

/-- `resizeImageToSquare`: decode the blob as an image (failure rejects
with image-load error), then redraw it stretched onto a 1500x1500 canvas
and encode as PNG.  The pixel payload is kept abstract. -/
def resizeImageToSquare : Blob → Except String Blob
  | .image _ _ _ data => .ok (.image "image/png" 1500 1500 data)
  | .raw _ => .error "Image load failed"

/-- The module filter of `zipCourse`: keep only the listed ids when a
filter is given (order of the course's module list is preserved). -/
def filterModules (modules : List Module) (moduleIdsToInclude : Option (List String)) :
    List Module :=
  match moduleIdsToInclude with
  | some ids => List.filter (fun m => ids.contains m.id) modules
  | none => modules

/-- The mascot path rewrite of `zipCourse`: every pose gets the canonical
path for the course's mascot name (a new record per pose, `{...pose, path:
newPath}`). -/
def renameMascots (mascotName : Option String) (mascot : List MascotPose) :
    List MascotPose :=
  mascot.map (fun pose => { pose with path := mascotCanonicalPath mascotName pose.type })

/-- The `curso.json` document produced by `zipCourse` (lines 452-473 of the
source): modules filtered, mascot paths renamed, handle fields stripped
from media and mascot records; `id` and `settings` carried over. -/
def serializeCourse (course : Course) (moduleIdsToInclude : Option (List String)) :
    CourseDoc where
  id := course.id
  settings := course.settings
  modules := filterModules course.modules moduleIdsToInclude
  media := course.media.map stripMedia
  mascot := (renameMascots course.settings.mascotName course.mascot).map stripMascot

/-- The archive entry the media loop of `zipCourse` adds for one media
record: its resolved content, or nothing when resolution fails (the item
is skipped with a warning). -/
def mediaEntry (fetch : String → Option Blob) (item : MediaFile) : Option Entry :=
  (resolveContent fetch item.file item.blobUrl).map Entry.binary

/-- The `try resize / catch fallback` step of `zipCourse`'s mascot loop:
the resized blob when `resizeImageToSquare` succeeds, the original content
when it fails. -/
def normalizeFallback (content : Blob) : Blob :=
  match resizeImageToSquare content with
  | .ok resized => resized
  | .error _ => content

/-- The archive entry the mascot loop of `zipCourse` adds for one
(renamed) mascot pose: the resolved content passed through
`resizeImageToSquare` with fallback to the original content; nothing when
resolution fails. -/
def mascotEntry (fetch : String → Option Blob) (item : MascotPose) : Option Entry :=
  (resolveContent fetch item.file item.blobUrl).map
    (fun content => .binary (normalizeFallback content))

/-- A per-item insertion loop over a zip being built: for each item, add
its entry (if any) at its path. -/
def addEntries {α : Type} (key : α → String) (ent : α → Option Entry)
    (items : List α) (z : Archive) : Archive :=
  items.foldl (fun z x =>
    match ent x with
    | some e => zfile z (key x) e
    | none => z) z

/-- Result of `zipCourse`: the produced archive, plus the state of the
caller's course object after the call.  The source's only assignments
target the shallow copy `courseToSave` (and fresh objects built from it),
never the input object or anything it shares, so the after-state is the
input itself; returning it makes that frame property statable. -/
structure ZipResult where
  archive : Archive
  courseAfter : Course
deriving DecidableEq, Repr

/-- `zipManager.zipCourse(course, moduleIdsToInclude?)`: build `curso.json`
from the filtered/renamed/stripped course, then add one binary entry per
resolved media item (at the item's original path) and per resolved mascot
pose (at its canonical path, resized to 1500x1500 PNG with fallback to the
original content). -/
def zipCourse (fetch : String → Option Blob) (course : Course)
    (moduleIdsToInclude : Option (List String)) : ZipResult :=
  let renamedMascot := renameMascots course.settings.mascotName course.mascot
  let cleanCourse := serializeCourse course moduleIdsToInclude
  let z := zfile [] "curso.json" (.doc cleanCourse)
  let z := addEntries (fun item => item.path) (mediaEntry fetch) course.media z
  let z := addEntries (fun item => item.path) (mascotEntry fetch) renamedMascot z
  ⟨z, course⟩

/-- `URL.createObjectURL`: mint a session-local handle for a blob.  The
handle's text is irrelevant to every property here (content handles are
excluded from all comparisons), so it is modelled by a constant. -/
def createObjectURL (_b : Blob) : String := "blob:session-local"

/-- The bytes of an archive entry, as the blob `file.async('blob')`
produces (the manifest text abstracted to raw bytes). -/
def entryBlob : Entry → Blob
  | .binary b => b
  | .doc _ => .raw []
  | .malformed => .raw []

/-- The per-media rehydration step of `unzipCourse`: if the archive has an
entry at the record's declared path, attach a fresh object URL as the
record's `blobUrl`; otherwise leave the record without a content handle. -/
def hydrateMedia (a : Archive) (m : CleanMedia) : MediaFile :=
  match zfind a m.path with
  | some e => ⟨m.id, m.name, m.path, m.type, some (createObjectURL (entryBlob e)), none⟩
  | none => ⟨m.id, m.name, m.path, m.type, none, none⟩

/-- The per-mascot rehydration step of `unzipCourse`. -/
def hydrateMascot (a : Archive) (p : CleanMascot) : MascotPose :=
  match zfind a p.path with
  | some e => ⟨p.type, p.path, some (createObjectURL (entryBlob e)), none⟩
  | none => ⟨p.type, p.path, none, none⟩

/-- `zipManager.unzipCourse(zipFile)`: load the archive; a missing
`curso.json` is the single fatal error (`throw new Error('curso.json not
found in zip')`), contents that fail to parse as a course document
propagate the parse error; otherwise rehydrate every media and mascot
record declared in the document, in document order. -/
def unzipCourse (zipFile : Archive) : Except String Course :=
  match zfind zipFile "curso.json" with
  | none => .error "curso.json not found in zip"
  | some .malformed => .error "Unexpected token in JSON"
  | some (.binary _) => .error "Unexpected token in JSON"
  | some (.doc course) =>
    .ok ⟨course.id, course.settings, course.modules,
      course.media.map (hydrateMedia zipFile),
      course.mascot.map (hydrateMascot zipFile)⟩

/-- `file.type !== 'image/png'` check of the editor's mascot
`handleFileChange` (MIME type of the upload). -/
def fileIsPng : Blob → Bool
  | .image format _ _ _ => format == "image/png"
  | .raw _ => false

/-- `MascotEditor.handleFileChange` in `EditorPage.tsx`: reject non-PNG
uploads; otherwise build a new pose record for the tag (path
`mascot/<poseTag>.png`, fresh blob URL, the uploaded file) and replace the
course's poses of that tag with it, keeping all other poses. -/
def handleFileChange (course : Course) (poseType : String) (file : Blob)
    (blobUrl : String) : Course :=
  if fileIsPng file then
    let newMascotPose : MascotPose :=
      ⟨poseType, "mascot/" ++ poseType ++ ".png", some blobUrl, some file⟩
    let existingMascot := course.mascot.filter (fun m => m.type != poseType)
    { course with mascot := existingMascot ++ [newMascotPose] }
  else
    course

/-! ## Archive lemmas -/

theorem addEntries_nil {α : Type} (key : α → String) (ent : α → Option Entry)
    (z : Archive) : addEntries key ent [] z = z := rfl

theorem addEntries_cons {α : Type} (key : α → String) (ent : α → Option Entry)
    (x : α) (xs : List α) (z : Archive) :
    addEntries key ent (x :: xs) z =
      addEntries key ent xs
        (match ent x with
         | some e => zfile z (key x) e
         | none => z) := rfl

/-- Lookup after insertion: the inserted name maps to the new entry, every
other name is unaffected (JSZip replace-on-insert semantics). -/
theorem zfind_zfile (a : Archive) (p : String) (e : Entry) (q : String) :
    zfind (zfile a p e) q = if q = p then some e else zfind a q := by
  unfold zfind zfile
  by_cases h : q = p
  · subst h
    rw [List.find?_cons_of_pos _ (by simp)]
    simp
  · rw [List.find?_cons_of_neg _
        (by simp only [beq_iff_eq]; exact fun hpq => h hpq.symm),
      if_neg h, List.find?_filter]
    have hfun : (fun pe : String × Entry =>
        decide ((pe.1 != p) = true ∧ (pe.1 == q) = true)) =
        fun pe : String × Entry => pe.1 == q := by
      funext pe
      by_cases hq : pe.1 = q
      · simp [hq]
        exact h
      · simp [hq]
    rw [hfun]

/-- Items whose entry at name `q` is never produced leave the lookup at `q`
unchanged. -/
theorem zfind_addEntries {α : Type} (key : α → String) (ent : α → Option Entry)
    (items : List α) (z : Archive) (q : String)
    (h : ∀ x ∈ items, key x = q → ent x = none) :
    zfind (addEntries key ent items z) q = zfind z q := by
  induction items generalizing z with
  | nil => rfl
  | cons x xs ih =>
    rw [addEntries_cons]
    cases hx : ent x with
    | none => exact ih z (fun y hy => h y (List.mem_cons_of_mem x hy))
    | some e =>
      have hk : key x ≠ q := by
        intro hkq
        rw [h x (List.mem_cons_self x xs) hkq] at hx
        exact Option.noConfusion hx
      rw [ih _ (fun y hy => h y (List.mem_cons_of_mem x hy)), zfind_zfile,
        if_neg (fun hqk => hk hqk.symm)]

/-- Two archives that agree on every name other than `s` still agree off
`s` after identical insertion loops. -/
theorem zfind_addEntries_congr {α : Type} (key : α → String) (ent : α → Option Entry)
    (items : List α) (z z' : Archive) (s : String)
    (h : ∀ q, q ≠ s → zfind z q = zfind z' q) :
    ∀ q, q ≠ s → zfind (addEntries key ent items z) q =
      zfind (addEntries key ent items z') q := by
  induction items generalizing z z' with
  | nil => exact h
  | cons x xs ih =>
    intro q hq
    rw [addEntries_cons, addEntries_cons]
    cases hx : ent x with
    | none => exact ih z z' h q hq
    | some e =>
      refine ih _ _ (fun r hr => ?_) q hq
      rw [zfind_zfile, zfind_zfile]
      by_cases hrk : r = key x
      · simp [hrk]
      · rw [if_neg hrk, if_neg hrk]
        exact h r hr

/-- Members of an archive after an insertion: the new entry or an old one. -/
theorem mem_zfile {pe : String × Entry} {a : Archive} {p : String} {e : Entry}
    (h : pe ∈ zfile a p e) : pe = (p, e) ∨ pe ∈ a := by
  unfold zfile at h
  rcases List.mem_cons.1 h with h1 | h1
  · exact Or.inl h1
  · exact Or.inr (List.mem_filter.1 h1).1

/-- Members of an archive after an insertion loop: an old entry, or one
produced by some item at that item's key. -/
theorem mem_addEntries {α : Type} {pe : String × Entry} (key : α → String)
    (ent : α → Option Entry) (items : List α) (z : Archive)
    (h : pe ∈ addEntries key ent items z) :
    pe ∈ z ∨ ∃ x ∈ items, key x = pe.1 ∧ ent x = some pe.2 := by
  induction items generalizing z with
  | nil => exact Or.inl h
  | cons x xs ih =>
    rw [addEntries_cons] at h
    cases hx : ent x with
    | none =>
      rw [hx] at h
      rcases ih _ h with h1 | ⟨y, hy, hk, he⟩
      · exact Or.inl h1
      · exact Or.inr ⟨y, List.mem_cons_of_mem x hy, hk, he⟩
    | some e =>
      rw [hx] at h
      rcases ih _ h with h1 | ⟨y, hy, hk, he⟩
      · rcases mem_zfile h1 with h2 | h2
        · refine Or.inr ⟨x, List.mem_cons_self x xs, ?_, ?_⟩
          · rw [h2]
          · rw [hx, h2]
        · exact Or.inl h2
      · exact Or.inr ⟨y, List.mem_cons_of_mem x hy, hk, he⟩

/-- A canonical mascot path is never the manifest name (it is at least 12
characters long). -/
theorem mascotCanonicalPath_ne_manifest (n : Option String) (t : String) :
    mascotCanonicalPath n t ≠ "curso.json" := by
  intro h
  have hl := congrArg String.length h
  simp only [mascotCanonicalPath, String.length_append] at hl
  have h1 : ("mascot/" : String).length = 7 := rfl
  have h2 : ("_" : String).length = 1 := rfl
  have h3 : (".png" : String).length = 4 := rfl
  have h4 : ("curso.json" : String).length = 10 := rfl
  omega

/-- The path of a renamed mascot pose is the canonical path for its tag. -/
theorem renameMascots_path {n : Option String} {mascot : List MascotPose}
    {p : MascotPose} (h : p ∈ renameMascots n mascot) :
    p.path = mascotCanonicalPath n p.type := by
  unfold renameMascots at h
  rcases List.mem_map.1 h with ⟨q, _, rfl⟩
  rfl

/-- The manifest entry of a packed archive is the serialized document,
provided no media path collides with the manifest name (mascot canonical
paths never do). -/
theorem zipCourse_manifest (fetch : String → Option Blob) (course : Course)
    (ids : Option (List String))
    (h : ∀ m ∈ course.media, m.path ≠ "curso.json") :
    zfind (zipCourse fetch course ids).archive "curso.json" =
      some (.doc (serializeCourse course ids)) := by
  unfold zipCourse
  rw [zfind_addEntries _ _ _ _ _
      (fun p hp hpath => absurd (renameMascots_path hp ▸ hpath)
        (mascotCanonicalPath_ne_manifest _ _)),
    zfind_addEntries _ _ _ _ _ (fun m hm hp => absurd hp (h m hm)),
    zfind_zfile, if_pos rfl]

/-- Unpacking an archive whose manifest parses as document `d` rehydrates
`d`'s asset lists in document order. -/
theorem unzipCourse_doc {a : Archive} {d : CourseDoc}
    (h : zfind a "curso.json" = some (.doc d)) :
    unzipCourse a = .ok ⟨d.id, d.settings, d.modules,
      d.media.map (hydrateMedia a), d.mascot.map (hydrateMascot a)⟩ := by
  unfold unzipCourse
  rw [h]

/-- Rehydration only fills content handles: the handle-free projection of a
rehydrated media record is the document record itself. -/
theorem stripMedia_hydrateMedia (a : Archive) (m : CleanMedia) :
    stripMedia (hydrateMedia a m) = m := by
  unfold hydrateMedia
  cases zfind a m.path <;> rfl

theorem stripMascot_hydrateMascot (a : Archive) (p : CleanMascot) :
    stripMascot (hydrateMascot a p) = p := by
  unfold hydrateMascot
  cases zfind a p.path <;> rfl

theorem hydrateMedia_file (a : Archive) (m : CleanMedia) :
    (hydrateMedia a m).file = none := by
  unfold hydrateMedia
  cases zfind a m.path <;> rfl

theorem hydrateMascot_file (a : Archive) (p : CleanMascot) :
    (hydrateMascot a p).file = none := by
  unfold hydrateMascot
  cases zfind a p.path <;> rfl

/-- A rehydrated record carries a content handle exactly when the archive
has an entry at its declared path. -/
theorem hydrateMedia_blobUrl (a : Archive) (m : CleanMedia) :
    (hydrateMedia a m).blobUrl.isSome = (zfind a m.path).isSome := by
  unfold hydrateMedia
  cases zfind a m.path <;> rfl

theorem hydrateMascot_blobUrl (a : Archive) (p : CleanMascot) :
    (hydrateMascot a p).blobUrl.isSome = (zfind a p.path).isSome := by
  unfold hydrateMascot
  cases zfind a p.path <;> rfl

/-- Rehydrating a whole document list and projecting the handles away
again is the identity. -/
theorem map_strip_hydrateMedia (a : Archive) (l : List CleanMedia) :
    (l.map (hydrateMedia a)).map stripMedia = l := by
  induction l with
  | nil => rfl
  | cons x xs ih => simp [stripMedia_hydrateMedia, ih]

theorem map_strip_hydrateMascot (a : Archive) (l : List CleanMascot) :
    (l.map (hydrateMascot a)).map stripMascot = l := by
  induction l with
  | nil => rfl
  | cons x xs ih => simp [stripMascot_hydrateMascot, ih]

theorem hydrateMedia_path (a : Archive) (m : CleanMedia) :
    (hydrateMedia a m).path = m.path := by
  unfold hydrateMedia
  cases zfind a m.path <;> rfl

theorem hydrateMascot_path (a : Archive) (p : CleanMascot) :
    (hydrateMascot a p).path = p.path := by
  unfold hydrateMascot
  cases zfind a p.path <;> rfl

/-! ## Sample data used as concrete inputs -/

/-- Sample settings with a given mascot name. -/
def sampleSettings (mascotName : Option String) : CourseSettings :=
  ⟨"Curso", mascotName, "Escola", "Autores", "2026-01-01", "descricao",
    ⟨"#123456", "sans"⟩, "pt-BR", true, true⟩

/-- A sample text module with the given id. -/
def sampleModule (i : String) : Module := ⟨i, "Titulo " ++ i, .text "<p>x</p>"⟩

/-- A course with modules m1, m2, m3 and one mascot pose. -/
def filterCourse : Course :=
  ⟨"cf", sampleSettings none, [sampleModule "m1", sampleModule "m2", sampleModule "m3"],
    [], [⟨"happy", "mascot/happy.png", none, some (.image "image/png" 10 10 [1])⟩]⟩

/-- A course whose mascot name is the spec's example "Dino 2000!". -/
def dinoCourse : Course :=
  ⟨"cd", sampleSettings (some "Dino 2000!"), [],
    [], [⟨"happy", "mascot/happy.png", none, some (.image "image/png" 10 10 [1])⟩]⟩

/-- A course whose single mascot pose still has the editor-assigned path
`mascot/happy.png` (the path `handleFileChange` gives a fresh upload). -/
def plainPoseCourse : Course :=
  ⟨"cp", sampleSettings none, [sampleModule "m1"],
    [⟨"med1", "pic", "media/pic.png", .image, none, some (.image "image/png" 10 10 [1])⟩],
    [⟨"happy", "mascot/happy.png", none, some (.image "image/png" 10 10 [2])⟩]⟩

/-- A course whose mascot pose resolves to content that is not a decodable
image. -/
def rawPoseCourse : Course :=
  ⟨"cr", sampleSettings none, [], [],
    [⟨"happy", "mascot/happy.png", none, some (.raw [7])⟩]⟩

/-- A course with one media asset that has only a (dead) `blobUrl` handle,
so that content resolution fails under a rejecting fetch. -/
def deadMediaCourse : Course :=
  ⟨"cm", sampleSettings none, [sampleModule "m1"],
    [⟨"med1", "pic", "media/pic.png", .image, some "blob:dead", none⟩],
    [⟨"happy", "mascot/happy.png", none, some (.image "image/png" 10 10 [3])⟩]⟩

/-- "PNG of exactly 1500x1500", the normalized-raster shape the spec
requires of mascot binaries. -/
def isPng1500 : Blob → Bool
  | .image format width height _ => format == "image/png" && width == 1500 && height == 1500
  | .raw _ => false

/-! ## Claims -/

/-- C2 counterexample: the claim asserts that for mascot name
"Dino 2000!" and pose happy the canonical path is
`mascot/Dino_2000_happy.png`; the code's slug maps the final '!' to '_' as
well, so the document produced by the packer uses
`mascot/Dino_2000__happy.png` (double underscore), which differs. -/
theorem c2_counterexample :
    (serializeCourse dinoCourse none).mascot.map (fun p => p.path) =
      ["mascot/Dino_2000__happy.png"] ∧
    mascotCanonicalPath (some "Dino 2000!") "happy" ≠ "mascot/Dino_2000_happy.png" := by
  constructor
  · decide
  · decide

/-- C2 (amended): the canonical mascot path at pack time is
`mascot/<slug(mascotName)>_<poseTag>.png`, where the slug trims the name
and replaces every character outside `[A-Za-z0-9]` with `_`, substituting
the default token `mascot` when the name is absent or the slug is empty;
for "Dino 2000!" and happy this gives `mascot/Dino_2000__happy.png` (the
'!' also maps to '_'), and for "" it gives `mascot/mascot_happy.png`. -/
theorem c2_canonical_paths (c : Course) (ids : Option (List String)) :
    (serializeCourse c ids).mascot.map (fun p => p.path) =
      c.mascot.map (fun p => mascotCanonicalPath c.settings.mascotName p.type) ∧
    mascotCanonicalPath (some "Dino 2000!") "happy" = "mascot/Dino_2000__happy.png" ∧
    mascotCanonicalPath (some "") "happy" = "mascot/mascot_happy.png" := by
  refine ⟨?_, by decide, by decide⟩
  unfold serializeCourse renameMascots
  simp only [List.map_map]
  rfl

/-- C6: packing with a module-id subset filter produces a document whose
module list is exactly the selected modules in course order (for the
concrete course `[m1, m2, m3]` with filter `{m2}`, exactly `[m2]`), while
the document's mascot list and every non-manifest archive entry are
independent of the filter. -/
theorem c6_filtering (fetch : String → Option Blob) (c : Course) (ids : List String)
    (sel : Option (List String)) :
    (serializeCourse c (some ids)).modules =
      c.modules.filter (fun m => ids.contains m.id) ∧
    (serializeCourse filterCourse (some ["m2"])).modules = [sampleModule "m2"] ∧
    (serializeCourse c sel).mascot = (serializeCourse c none).mascot ∧
    (∀ p, p ≠ "curso.json" →
      zfind (zipCourse fetch c sel).archive p =
        zfind (zipCourse fetch c none).archive p) := by
  refine ⟨rfl, by decide, rfl, ?_⟩
  intro p hp
  unfold zipCourse
  refine zfind_addEntries_congr _ _ _ _ _ "curso.json"
    (fun q hq => zfind_addEntries_congr _ _ _ _ _ "curso.json"
      (fun r hr => ?_) q hq) p hp
  rw [zfind_zfile, zfind_zfile, if_neg hr, if_neg hr]

/-- Witness for C6 at the concrete course `[m1, m2, m3]`, filter `{m2}`,
checking the mascot's archive entry at its canonical path. -/
theorem c6_filtering_witness :
    (serializeCourse filterCourse (some ["m2"])).modules =
      filterCourse.modules.filter (fun m => ["m2"].contains m.id) ∧
    (serializeCourse filterCourse (some ["m2"])).modules = [sampleModule "m2"] ∧
    (serializeCourse filterCourse (some ["m2"])).mascot =
      (serializeCourse filterCourse none).mascot ∧
    zfind (zipCourse (fun _ => none) filterCourse (some ["m2"])).archive
        "mascot/mascot_happy.png" =
      zfind (zipCourse (fun _ => none) filterCourse none).archive
        "mascot/mascot_happy.png" := by
  have h := c6_filtering (fun _ => none) filterCourse ["m2"] (some ["m2"])
  exact ⟨h.1, h.2.1, h.2.2.1, h.2.2.2 "mascot/mascot_happy.png" (by decide)⟩

/-- C9: packing does not mutate its input Course: the caller's course
object after `zipCourse` returns is the input unchanged — settings,
modules, media and mascot records (paths and content handles included) —
because every rewriting step of the source targets the shallow copy
`courseToSave` or fresh objects built from it. -/
theorem c9_zipCourse_pure (fetch : String → Option Blob) (c : Course)
    (ids : Option (List String)) :
    (zipCourse fetch c ids).courseAfter = c ∧
    (zipCourse fetch c ids).courseAfter.settings = c.settings ∧
    (zipCourse fetch c ids).courseAfter.modules = c.modules ∧
    (zipCourse fetch c ids).courseAfter.media = c.media ∧
    (zipCourse fetch c ids).courseAfter.mascot = c.mascot :=
  ⟨rfl, rfl, rfl, rfl, rfl⟩

/-- C8: in the editor's course state, adding a pose for a tag replaces
every prior pose of that tag with the new record (exactly one pose of that
tag remains), leaves the poses of all other tags unchanged, and preserves
the at-most-one-pose-per-tag invariant. -/
theorem c8_pose_replacement (c : Course) (poseType : String) (file : Blob)
    (blobUrl : String) (hpng : fileIsPng file = true) :
    (handleFileChange c poseType file blobUrl).mascot.filter
        (fun m => m.type == poseType) =
      [⟨poseType, "mascot/" ++ poseType ++ ".png", some blobUrl, some file⟩] ∧
    (handleFileChange c poseType file blobUrl).mascot.filter
        (fun m => m.type != poseType) =
      c.mascot.filter (fun m => m.type != poseType) ∧
    ((∀ t, (c.mascot.filter (fun m => m.type == t)).length ≤ 1) →
      ∀ t, ((handleFileChange c poseType file blobUrl).mascot.filter
        (fun m => m.type == t)).length ≤ 1) := by
  unfold handleFileChange
  rw [if_pos hpng]
  simp only
  refine ⟨?_, ?_, ?_⟩
  · rw [List.filter_append, List.filter_filter]
    have hnone : (fun m : MascotPose => (m.type == poseType) && (m.type != poseType)) =
        fun _ => false := by
      funext m
      by_cases hm : m.type = poseType <;> simp [hm]
    rw [hnone, List.filter_false]
    simp
  · rw [List.filter_append, List.filter_filter]
    have hidem : (fun m : MascotPose => (m.type != poseType) && (m.type != poseType)) =
        fun m : MascotPose => m.type != poseType := by
      funext m
      by_cases hm : m.type = poseType <;> simp [hm]
    rw [hidem]
    simp
  · intro hinv t
    by_cases ht : t = poseType
    · subst ht
      rw [List.filter_append, List.filter_filter]
      have hnone : (fun m : MascotPose => (m.type == t) && (m.type != t)) =
          fun _ => false := by
        funext m
        by_cases hm : m.type = t <;> simp [hm]
      rw [hnone, List.filter_false]
      simp
    · rw [List.filter_append, List.filter_filter]
      have hnew : List.filter (fun m : MascotPose => m.type == t)
          [⟨poseType, "mascot/" ++ poseType ++ ".png", some blobUrl, some file⟩] = [] := by
        simp [Ne.symm ht]
      have heq : (fun m : MascotPose => (m.type == t) && (m.type != poseType)) =
          fun m : MascotPose => m.type == t := by
        funext m
        by_cases hm : m.type = t
        · simp [hm, ht]
        · simp [hm]
      rw [heq, hnew, List.append_nil]
      exact hinv t

/-- Witness for C8: a concrete PNG upload for the happy tag on a course
that already holds a happy pose and a sad pose. -/
theorem c8_pose_replacement_witness :
    fileIsPng (.image "image/png" 9 9 [5]) = true ∧
    ((handleFileChange filterCourse "happy" (.image "image/png" 9 9 [5])
        "blob:new").mascot.filter (fun m => m.type == "happy") =
      [⟨"happy", "mascot/happy.png", some "blob:new",
        some (.image "image/png" 9 9 [5])⟩] ∧
    (handleFileChange filterCourse "happy" (.image "image/png" 9 9 [5])
        "blob:new").mascot.filter (fun m => m.type != "happy") =
      filterCourse.mascot.filter (fun m => m.type != "happy") ∧
    ((∀ t, (filterCourse.mascot.filter (fun m => m.type == t)).length ≤ 1) →
      ∀ t, ((handleFileChange filterCourse "happy" (.image "image/png" 9 9 [5])
        "blob:new").mascot.filter (fun m => m.type == t)).length ≤ 1)) :=
  ⟨by decide, c8_pose_replacement filterCourse "happy" (.image "image/png" 9 9 [5])
    "blob:new" (by decide)⟩

/-- C4: unpacking fails (with the single fatal error) exactly when the
archive has no `curso.json` entry or that entry's contents fail to parse
as a course document; every archive whose `curso.json` parses yields a
Course, and a missing manifest produces the fixed error message and no
partial Course. -/
theorem c4_manifest_fatal (a : Archive) :
    ((∃ c, unzipCourse a = Except.ok c) ↔
      (∃ d, zfind a "curso.json" = some (.doc d))) ∧
    (zfind a "curso.json" = none →
      unzipCourse a = Except.error "curso.json not found in zip") := by
  unfold unzipCourse
  cases hz : zfind a "curso.json" with
  | none => simp
  | some e =>
    cases e with
    | doc d => simp
    | malformed => simp
    | binary b => simp

/-- Witness for C4: a one-entry archive holding only the serialized
document of a concrete course. -/
theorem c4_manifest_fatal_witness :
    ((∃ c, unzipCourse [("curso.json", Entry.doc (serializeCourse filterCourse none))] =
        Except.ok c) ↔
      (∃ d, zfind [("curso.json", Entry.doc (serializeCourse filterCourse none))]
        "curso.json" = some (.doc d))) ∧
    unzipCourse ([] : Archive) = Except.error "curso.json not found in zip" :=
  ⟨(c4_manifest_fatal [("curso.json", Entry.doc (serializeCourse filterCourse none))]).1,
    (c4_manifest_fatal ([] : Archive)).2 rfl⟩

/-- C3 counterexample: the claim asserts every mascot binary placed for a
resolved pose is a 1500x1500 PNG; but when the resolved content fails to
decode as an image, the packer falls back to inserting the original
content unchanged (source line 513), which here is a raw non-image blob. -/
theorem c3_counterexample :
    resolveContent (fun _ => none) (some (.raw [7])) none = some (.raw [7]) ∧
    zfind (zipCourse (fun _ => none) rawPoseCourse none).archive
      "mascot/mascot_happy.png" = some (.binary (.raw [7])) ∧
    isPng1500 (.raw [7]) = false := by
  refine ⟨rfl, by decide, rfl⟩

/-- C3 (amended): for every mascot pose whose resolved content decodes as
an image, the packer's entry is that image normalized to a 1500x1500 PNG;
when the resolved content does not decode, normalization fails and the
original content is inserted unchanged as a fallback. -/
theorem c3_normalized (fetch : String → Option Blob) (item : MascotPose) :
    (∀ fmt w h d,
      resolveContent fetch item.file item.blobUrl = some (.image fmt w h d) →
      mascotEntry fetch item = some (.binary (.image "image/png" 1500 1500 d)) ∧
      isPng1500 (.image "image/png" 1500 1500 d) = true) ∧
    (∀ d, resolveContent fetch item.file item.blobUrl = some (.raw d) →
      mascotEntry fetch item = some (.binary (.raw d))) := by
  constructor
  · intro fmt w h d hres
    unfold mascotEntry
    rw [hres]
    exact ⟨rfl, by simp [isPng1500]⟩
  · intro d hres
    unfold mascotEntry
    rw [hres]
    rfl

/-- Witness for C3 (amended): a decodable JPEG upload is normalized to a
1500x1500 PNG; an undecodable blob is passed through unchanged. -/
theorem c3_normalized_witness :
    (mascotEntry (fun _ => none)
        ⟨"happy", "p", none, some (.image "image/jpeg" 10 20 [9])⟩ =
      some (.binary (.image "image/png" 1500 1500 [9])) ∧
      isPng1500 (.image "image/png" 1500 1500 [9]) = true) ∧
    mascotEntry (fun _ => none) ⟨"happy", "p", none, some (.raw [7])⟩ =
      some (.binary (.raw [7])) :=
  ⟨(c3_normalized (fun _ => none)
      ⟨"happy", "p", none, some (.image "image/jpeg" 10 20 [9])⟩).1
      "image/jpeg" 10 20 [9] (by decide),
    (c3_normalized (fun _ => none) ⟨"happy", "p", none, some (.raw [7])⟩).2
      [7] (by decide)⟩

/-- C7: the document written into the archive is the serialized course
with the content-handle fields stripped from every media and mascot record
(the document's asset lists are exactly the handle-free projections), and
binaries never appear inline in the document: every archive entry other
than the manifest is a binary entry. -/
theorem c7_document_stripped (fetch : String → Option Blob) (c : Course)
    (ids : Option (List String)) (h : ∀ m ∈ c.media, m.path ≠ "curso.json") :
    zfind (zipCourse fetch c ids).archive "curso.json" =
      some (.doc (serializeCourse c ids)) ∧
    (serializeCourse c ids).media = c.media.map stripMedia ∧
    (serializeCourse c ids).mascot =
      (renameMascots c.settings.mascotName c.mascot).map stripMascot ∧
    ∀ pe ∈ (zipCourse fetch c ids).archive,
      pe.1 = "curso.json" ∨ ∃ b, pe.2 = Entry.binary b := by
  refine ⟨zipCourse_manifest fetch c ids h, rfl, rfl, ?_⟩
  intro pe hpe
  unfold zipCourse at hpe
  rcases mem_addEntries _ _ _ _ hpe with h1 | ⟨x, hx, hk, he⟩
  · rcases mem_addEntries _ _ _ _ h1 with h2 | ⟨x, hx, hk, he⟩
    · rcases mem_zfile h2 with h3 | h3
      · left
        rw [h3]
      · exact absurd h3 (List.not_mem_nil pe)
    · right
      unfold mediaEntry at he
      cases hr : resolveContent fetch x.file x.blobUrl with
      | none => rw [hr] at he; exact Option.noConfusion he
      | some b =>
        rw [hr] at he
        exact ⟨b, (Option.some.inj he).symm⟩
  · right
    unfold mascotEntry at he
    rcases Option.map_eq_some'.1 he with ⟨content, _, hfe⟩
    exact ⟨normalizeFallback content, hfe.symm⟩

/-- Witness for C7 at a concrete course with one media asset and one
mascot pose. -/
theorem c7_document_stripped_witness :
    zfind (zipCourse (fun _ => none) plainPoseCourse none).archive "curso.json" =
      some (.doc (serializeCourse plainPoseCourse none)) ∧
    (serializeCourse plainPoseCourse none).media =
      plainPoseCourse.media.map stripMedia ∧
    (serializeCourse plainPoseCourse none).mascot =
      (renameMascots plainPoseCourse.settings.mascotName
        plainPoseCourse.mascot).map stripMascot ∧
    ∀ pe ∈ (zipCourse (fun _ => none) plainPoseCourse none).archive,
      pe.1 = "curso.json" ∨ ∃ b, pe.2 = Entry.binary b :=
  c7_document_stripped (fun _ => none) plainPoseCourse none (by decide)

/-- C5: when a media asset's content cannot be resolved (and no other
asset supplies content at its path), packing still succeeds: the document
keeps the record referencing the asset's path, the archive has no entry at
that path, and unpacking that archive yields — not an error — a media
record for that path with no content handle attached. -/
theorem c5_missing_media (fetch : String → Option Blob) (c : Course)
    (ids : Option (List String)) (m : MediaFile) (hm : m ∈ c.media)
    (hres : ∀ m' ∈ c.media, m'.path = m.path →
      resolveContent fetch m'.file m'.blobUrl = none)
    (hman : ∀ m' ∈ c.media, m'.path ≠ "curso.json")
    (hmascot : ∀ p ∈ renameMascots c.settings.mascotName c.mascot,
      p.path ≠ m.path) :
    stripMedia m ∈ (serializeCourse c ids).media ∧
    zfind (zipCourse fetch c ids).archive m.path = none ∧
    ∃ c', unzipCourse (zipCourse fetch c ids).archive = Except.ok c' ∧
      MediaFile.mk m.id m.name m.path m.type none none ∈ c'.media := by
  have hdoc := zipCourse_manifest fetch c ids hman
  have hzf : zfind (zipCourse fetch c ids).archive m.path = none := by
    unfold zipCourse
    rw [zfind_addEntries _ _ _ _ _
        (fun p hp hpath => absurd hpath (hmascot p hp)),
      zfind_addEntries _ _ _ _ _ (fun m' hm' hp => by
        unfold mediaEntry
        rw [hres m' hm' hp]
        rfl),
      zfind_zfile, if_neg (hman m hm)]
    rfl
  refine ⟨List.mem_map_of_mem stripMedia hm, hzf, ?_⟩
  refine ⟨_, unzipCourse_doc hdoc, ?_⟩
  show MediaFile.mk m.id m.name m.path m.type none none ∈
    (serializeCourse c ids).media.map
      (hydrateMedia (zipCourse fetch c ids).archive)
  have heq : hydrateMedia (zipCourse fetch c ids).archive (stripMedia m) =
      MediaFile.mk m.id m.name m.path m.type none none := by
    unfold hydrateMedia stripMedia
    simp only
    rw [hzf]
  rw [← heq]
  exact List.mem_map_of_mem _ (List.mem_map_of_mem stripMedia hm)

/-- Witness for C5: a course whose one media asset holds only a dead
`blobUrl` handle under a rejecting fetch. -/
theorem c5_missing_media_witness :
    stripMedia ⟨"med1", "pic", "media/pic.png", .image, some "blob:dead", none⟩ ∈
      (serializeCourse deadMediaCourse none).media ∧
    zfind (zipCourse (fun _ => none) deadMediaCourse none).archive
      "media/pic.png" = none ∧
    ∃ c', unzipCourse (zipCourse (fun _ => none) deadMediaCourse none).archive =
        Except.ok c' ∧
      MediaFile.mk "med1" "pic" "media/pic.png" MediaType.image none none ∈
        c'.media :=
  c5_missing_media (fun _ => none) deadMediaCourse none
    ⟨"med1", "pic", "media/pic.png", .image, some "blob:dead", none⟩
    (by decide) (by decide) (by decide) (by decide)

/-- C10: unpacking preserves the media and mascot record lists exactly as
declared in the document — same length, order, paths and fields (the
handle-free projections of the rehydrated lists are the document lists) —
attaching a content handle to a record iff the archive has an entry at its
declared path, and never attaching a raw file handle. -/
theorem c10_unzip_frame (a : Archive) (d : CourseDoc)
    (h : zfind a "curso.json" = some (.doc d)) :
    ∃ c', unzipCourse a = Except.ok c' ∧
      c'.media.map stripMedia = d.media ∧
      c'.mascot.map stripMascot = d.mascot ∧
      (∀ m ∈ c'.media, m.file = none ∧
        m.blobUrl.isSome = (zfind a m.path).isSome) ∧
      (∀ p ∈ c'.mascot, p.file = none ∧
        p.blobUrl.isSome = (zfind a p.path).isSome) := by
  refine ⟨_, unzipCourse_doc h, ?_, ?_, ?_, ?_⟩
  · exact map_strip_hydrateMedia a d.media
  · exact map_strip_hydrateMascot a d.mascot
  · intro m hmem
    rcases List.mem_map.1 hmem with ⟨cm, _, rfl⟩
    exact ⟨hydrateMedia_file a cm, by
      rw [hydrateMedia_blobUrl, hydrateMedia_path]⟩
  · intro p hmem
    rcases List.mem_map.1 hmem with ⟨cp, _, rfl⟩
    exact ⟨hydrateMascot_file a cp, by
      rw [hydrateMascot_blobUrl, hydrateMascot_path]⟩

/-- Witness for C10: a two-entry archive whose document declares one media
record with a matching binary entry and one mascot record without one. -/
theorem c10_unzip_frame_witness :
    ∃ c', unzipCourse
        [("media/pic.png", Entry.binary (.raw [1])),
          ("curso.json", Entry.doc (serializeCourse deadMediaCourse none))] =
        Except.ok c' ∧
      c'.media.map stripMedia = (serializeCourse deadMediaCourse none).media ∧
      c'.mascot.map stripMascot = (serializeCourse deadMediaCourse none).mascot ∧
      (∀ m ∈ c'.media, m.file = none ∧
        m.blobUrl.isSome = (zfind
          [("media/pic.png", Entry.binary (.raw [1])),
            ("curso.json", Entry.doc (serializeCourse deadMediaCourse none))]
          m.path).isSome) ∧
      (∀ p ∈ c'.mascot, p.file = none ∧
        p.blobUrl.isSome = (zfind
          [("media/pic.png", Entry.binary (.raw [1])),
            ("curso.json", Entry.doc (serializeCourse deadMediaCourse none))]
          p.path).isSome) :=
  c10_unzip_frame
    [("media/pic.png", Entry.binary (.raw [1])),
      ("curso.json", Entry.doc (serializeCourse deadMediaCourse none))]
    (serializeCourse deadMediaCourse none) (by decide)

/-- C1 counterexample: the claim asserts pack-then-unpack preserves the
asset path set; but packing rewrites mascot paths to the canonical naming
scheme, so a course whose pose still has the editor-assigned path
`mascot/happy.png` comes back with path `mascot/mascot_happy.png`. -/
theorem c1_counterexample :
    (unzipCourse (zipCourse (fun _ => none) plainPoseCourse none).archive).toOption.map
        (fun c => c.mascot.map (fun p => p.path)) =
      some ["mascot/mascot_happy.png"] ∧
    plainPoseCourse.mascot.map (fun p => p.path) = ["mascot/happy.png"] ∧
    ("mascot/mascot_happy.png" : String) ≠ "mascot/happy.png" := by
  refine ⟨by decide, by decide, by decide⟩

/-- C1 (amended): packing a Course (no filter) and immediately unpacking
the result yields a Course whose id, settings, modules, and media records
(content handles excluded) are structurally equal to the original's, and
whose mascot records (content handles excluded) are the original's with
paths rewritten to the canonical `mascot/<slug>_<poseTag>.png` scheme —
equal to the original paths exactly when those were already canonical;
media paths must avoid the reserved manifest name `curso.json`. -/
theorem c1_roundtrip (c : Course) (fetch : String → Option Blob)
    (h : ∀ m ∈ c.media, m.path ≠ "curso.json") :
    ∃ c', unzipCourse (zipCourse fetch c none).archive = Except.ok c' ∧
      c'.id = c.id ∧
      c'.settings = c.settings ∧
      c'.modules = c.modules ∧
      c'.media.map stripMedia = c.media.map stripMedia ∧
      c'.mascot.map stripMascot = c.mascot.map
        (fun p => CleanMascot.mk p.type
          (mascotCanonicalPath c.settings.mascotName p.type)) := by
  have hdoc := zipCourse_manifest fetch c none h
  refine ⟨_, unzipCourse_doc hdoc, rfl, rfl, rfl, ?_, ?_⟩
  · rw [map_strip_hydrateMedia]
    rfl
  · rw [map_strip_hydrateMascot]
    show (renameMascots c.settings.mascotName c.mascot).map stripMascot =
      c.mascot.map (fun p => CleanMascot.mk p.type
        (mascotCanonicalPath c.settings.mascotName p.type))
    rw [renameMascots, List.map_map]
    rfl

/-- Witness for C1 (amended) at a concrete course with one module, one
media asset and one mascot pose. -/
theorem c1_roundtrip_witness :
    ∃ c', unzipCourse (zipCourse (fun _ => none) plainPoseCourse none).archive =
        Except.ok c' ∧
      c'.id = plainPoseCourse.id ∧
      c'.settings = plainPoseCourse.settings ∧
      c'.modules = plainPoseCourse.modules ∧
      c'.media.map stripMedia = plainPoseCourse.media.map stripMedia ∧
      c'.mascot.map stripMascot = plainPoseCourse.mascot.map
        (fun p => CleanMascot.mk p.type
          (mascotCanonicalPath plainPoseCourse.settings.mascotName p.type)) :=
  c1_roundtrip plainPoseCourse (fun _ => none) (by decide)

end CMA
